import Mathlib

/-!
Verification development for the Neotron BMC firmware
(`src/neotron-bmc-pico/src/main.rs`).

The development shallowly embeds the register command processor
(`process_command`), the event-queue producers, and the idle dispatch loop
of the firmware.  Machine integers are modelled as `Nat` with explicit
`% 2^w` where a cast occurs in the source.  Types coming from the
workspace crates `neotron-bmc-protocol`, `neotron-bmc-commands` and the
`speaker`/`ps2` modules of `neotron-bmc-pico` are not part of the provided
source tree; those are modelled from the spec and are marked as such in
their doc comments.
-/

set_option maxRecDepth 4000

namespace NeotronBmc

/-- Modelled from the spec: the request types of the `neotron-bmc-protocol`
crate, `Read = 0 | ShortWrite = 1 | ReadAlt = 2`. -/
inductive RequestType
  | read
  | shortWrite
  | readAlt
  deriving DecidableEq

/-- Modelled from the spec: the two request encodings must decode to the same
logical fields; `flatten` maps the alternate read onto a plain read, so the
command processor only distinguishes reads from short writes. -/
def RequestType.flatten : RequestType → RequestType
  | .readAlt => .read
  | t => t

/-- Modelled from the spec: a decoded request frame
`{register: u8, request_type: u8, length_or_data: u8}`.  The firmware derives
`PartialEq` on `proto::Request`, used for the duplicate check. -/
structure Request where
  register : Nat
  request_type : RequestType
  length_or_data : Nat
  deriving DecidableEq

/-- Modelled from the spec: the response result codes
`Ok | BadLength | BadRegister | BadCrc`. -/
inductive ResponseResult
  | Ok
  | BadLength
  | BadRegister
  | BadCrc
  deriving DecidableEq

/-- Modelled from the spec: a response frame, a result code plus
`0..=N` payload bytes. -/
structure Response where
  result : ResponseResult
  data : List Nat
  deriving DecidableEq

/-- Modelled from the spec: `proto::Response::new_ok_with_data`. -/
def Response.new_ok_with_data (d : List Nat) : Response :=
  ⟨ResponseResult.Ok, d⟩

/-- Modelled from the spec: `proto::Response::new_without_data`. -/
def Response.new_without_data (r : ResponseResult) : Response :=
  ⟨r, []⟩

/-- Modelled from the spec: the registers of the `neotron-bmc-commands` crate
that `process_command` dispatches on. -/
inductive Command
  | ProtocolVersion
  | FirmwareVersion
  | Ps2KbBuffer
  | SpeakerDuration
  | SpeakerPeriodHigh
  | SpeakerPeriodLow
  | SpeakerDutyCycle
  deriving DecidableEq

/-- Modelled from the spec: `Command::try_from(u8)` decodes a register id.
The numeric codes are representative (the exact numbering of the commands
crate is not in the provided sources); the claims depend only on which bytes
decode to which commands and on some bytes not decoding at all. -/
def Command.try_from (n : Nat) : Option Command :=
  if n = 0 then some .ProtocolVersion
  else if n = 1 then some .FirmwareVersion
  else if n = 2 then some .Ps2KbBuffer
  else if n = 3 then some .SpeakerDuration
  else if n = 4 then some .SpeakerPeriodHigh
  else if n = 5 then some .SpeakerPeriodLow
  else if n = 6 then some .SpeakerDutyCycle
  else none

/-- Modelled from the spec: `speaker::RegisterState`, the speaker
configuration: duration (u16, milliseconds), period-high, period-low,
duty-cycle (u8 each), and a dirty flag (`needs_update`) marking that the
backing PWM hardware must be resynchronized to the stored values. -/
structure SpeakerRegisterState where
  duration_reg : Nat
  period_high_reg : Nat
  period_low_reg : Nat
  duty_cycle_reg : Nat
  needs_update_flag : Bool
  deriving DecidableEq

namespace SpeakerRegisterState

/-- Modelled from the spec: getter for the tone duration (u16). -/
def duration (s : SpeakerRegisterState) : Nat := s.duration_reg

/-- Modelled from the spec: getter for the high half of the tone period. -/
def period_high (s : SpeakerRegisterState) : Nat := s.period_high_reg

/-- Modelled from the spec: getter for the low half of the tone period. -/
def period_low (s : SpeakerRegisterState) : Nat := s.period_low_reg

/-- Modelled from the spec: getter for the duty cycle. -/
def duty_cycle (s : SpeakerRegisterState) : Nat := s.duty_cycle_reg

/-- Modelled from the spec: getter for the dirty flag. -/
def needs_update (s : SpeakerRegisterState) : Bool := s.needs_update_flag

/-- Modelled from the spec: set the duration (u16 field) and mark the
hardware as needing resynchronization. -/
def set_duration (s : SpeakerRegisterState) (v : Nat) : SpeakerRegisterState :=
  { s with duration_reg := v % 65536, needs_update_flag := true }

/-- Modelled from the spec: set the high half of the period (u8 field). -/
def set_period_high (s : SpeakerRegisterState) (v : Nat) : SpeakerRegisterState :=
  { s with period_high_reg := v % 256, needs_update_flag := true }

/-- Modelled from the spec: set the low half of the period (u8 field). -/
def set_period_low (s : SpeakerRegisterState) (v : Nat) : SpeakerRegisterState :=
  { s with period_low_reg := v % 256, needs_update_flag := true }

/-- Modelled from the spec: set the duty cycle (u8 field). -/
def set_duty_cycle (s : SpeakerRegisterState) (v : Nat) : SpeakerRegisterState :=
  { s with duty_cycle_reg := v % 256, needs_update_flag := true }

/-- Modelled from the spec: set or clear the dirty flag. -/
def set_needs_update (s : SpeakerRegisterState) (v : Bool) : SpeakerRegisterState :=
  { s with needs_update_flag := v }

end SpeakerRegisterState

/-- The host-visible register file (`struct RegisterState` in `main.rs`):
the 32-byte firmware version, the keyboard byte FIFO
(`heapless::Deque<u8, 16>`, front = oldest), the 16-byte scratch/TX buffer,
the cached last request used for duplicate detection, and the speaker
configuration. -/
structure RegisterState where
  firmware_version : List Nat
  ps2_kb_bytes : List Nat
  scratch : List Nat
  last_req : Option Request
  speaker : SpeakerRegisterState
  deriving DecidableEq

/-- The loop `for slot in &mut register_state.scratch[1..]` in the
`Ps2KbBuffer` branch of `process_command`: fill `n` slots by popping the
FIFO front, writing `0` once the FIFO is exhausted.  Returns the filled
slots and the remaining FIFO. -/
def popInto : Nat → List Nat → List Nat × List Nat
  | 0, fifo => ([], fifo)
  | n + 1, [] => (0 :: (popInto n []).1, [])
  | n + 1, x :: rest => (x :: (popInto n rest).1, (popInto n rest).2)

/-- `process_command` from `main.rs`, as a pure state transformer.  The
response handed to `rsp_handler` becomes the first component; the mutated
`RegisterState` the second.  Rust slice indexing `&buf[0..length]` is
modelled by `List.take`; every use is in range for the states reachable in
the firmware. -/
def process_command (req : Request) (s : RegisterState) : Response × RegisterState :=
  if s.last_req = some req then
    -- A duplicate! Resend what we sent last time.
    (Response.new_ok_with_data (s.scratch.take req.length_or_data), s)
  else
    -- Not what we were sent last time, so forget the previous request.
    let s : RegisterState := { s with last_req := none }
    match req.request_type.flatten, Command.try_from req.register with
    | .read, some .ProtocolVersion =>
      if req.length_or_data = 3 then
        (Response.new_ok_with_data [0, 1, 1], s)
      else
        (Response.new_without_data .BadLength, s)
    | .read, some .FirmwareVersion =>
      if req.length_or_data ≤ s.firmware_version.length then
        (Response.new_ok_with_data (s.firmware_version.take req.length_or_data), s)
      else
        (Response.new_without_data .BadLength, s)
    | .read, some .Ps2KbBuffer =>
      if 0 < req.length_or_data ∧ req.length_or_data ≤ s.scratch.length then
        -- First byte is the number of bytes in the FIFO, then as many
        -- FIFO bytes as fit in the remaining 15 slots, zero-padded.
        let p := popInto 15 s.ps2_kb_bytes
        let scr : List Nat := (s.ps2_kb_bytes.length % 256) :: p.1
        let s : RegisterState :=
          { s with scratch := scr, ps2_kb_bytes := p.2, last_req := some req }
        (Response.new_ok_with_data (scr.take req.length_or_data), s)
      else
        (Response.new_without_data .BadLength, s)
    | .read, some .SpeakerDuration =>
      (Response.new_ok_with_data [(s.speaker.duration / 10) % 256], s)
    | .shortWrite, some .SpeakerDuration =>
      (Response.new_without_data .Ok,
        { s with speaker := s.speaker.set_duration (req.length_or_data * 10) })
    | .read, some .SpeakerPeriodHigh =>
      (Response.new_ok_with_data [s.speaker.period_high], s)
    | .shortWrite, some .SpeakerPeriodHigh =>
      -- NOTE: the source calls `set_period_low` here.
      (Response.new_without_data .Ok,
        { s with speaker := s.speaker.set_period_low req.length_or_data })
    | .read, some .SpeakerPeriodLow =>
      (Response.new_ok_with_data [s.speaker.period_low], s)
    | .shortWrite, some .SpeakerPeriodLow =>
      -- NOTE: the source calls `set_period_high` here.
      (Response.new_without_data .Ok,
        { s with speaker := s.speaker.set_period_high req.length_or_data })
    | .read, some .SpeakerDutyCycle =>
      (Response.new_ok_with_data [s.speaker.duty_cycle], s)
    | .shortWrite, some .SpeakerDutyCycle =>
      (Response.new_without_data .Ok,
        { s with speaker := s.speaker.set_duty_cycle req.length_or_data })
    | _, _ =>
      -- Sorry, that register / request type is not supported.
      (Response.new_without_data .BadRegister, s)

/-- The default register file (`Default` derive plus the
`firmware_version: VERSION` override in `idle`): empty FIFO, zeroed scratch,
no cached request, zeroed speaker configuration. -/
def RegisterState.initial (version : List Nat) : RegisterState :=
  { firmware_version := version
    ps2_kb_bytes := []
    scratch := List.replicate 16 0
    last_req := none
    speaker := ⟨0, 0, 0, 0, false⟩ }

/-- The typed events of `mod app` (`enum Message`), carried by the
`heapless::spsc::Queue<Message, 8>` from interrupt context to the dispatch
loop. -/
inductive Message
  | Ps2Data0 (word : Nat)
  | Ps2Data1 (word : Nat)
  | SpiRx
  | SpiEnable
  | SpiDisable
  | PowerButtonShortPress
  | PowerButtonLongPress
  | PowerButtonRelease
  | ResetButtonShortPress
  | UartByte (b : Nat)
  | SpeakerDisable
  deriving DecidableEq

/-- Build-time capacity of the event queue (`Queue<Message, 8>`). -/
def QUEUE_CAPACITY : Nat := 8

/-- Enqueue on the bounded event queue: `Ok` when a slot is free, `Err`
(`none`) when the queue is full. -/
def queue_enqueue (q : List Message) (m : Message) : Option (List Message) :=
  if q.length < QUEUE_CAPACITY then some (q ++ [m]) else none

/-- What an event producer does after attempting an enqueue: either it
continues with the (possibly updated) queue, or the firmware panics. -/
inductive EnqueueOutcome
  | ok (q : List Message)
  | panicked
  deriving DecidableEq

/-- The PS/2 enqueue site in `exti4_15_interrupt`: a completed PS/2 word is
enqueued as `Ps2Data0`; a full queue is an explicit firmware panic. -/
def exti_ps2_word_enqueue (q : List Message) (word : Nat) : EnqueueOutcome :=
  match queue_enqueue q (.Ps2Data0 word) with
  | some q' => .ok q'
  | none => .panicked

/-- The chip-select enqueue site in `exti4_15_interrupt`: a CS edge is
enqueued as `SpiEnable` (CS low) or `SpiDisable` (CS high); a full queue is
an explicit firmware panic. -/
def exti_cs_enqueue (q : List Message) (cs_low : Bool) : EnqueueOutcome :=
  match queue_enqueue q (if cs_low then .SpiEnable else .SpiDisable) with
  | some q' => .ok q'
  | none => .panicked

/-- The enqueue site in `usart1_interrupt`: the received byte is enqueued as
`UartByte`; the `Result` is discarded (`let _ = ...`), so on a full queue
the event is silently dropped. -/
def usart1_rx_enqueue (q : List Message) (b : Nat) : EnqueueOutcome :=
  match queue_enqueue q (.UartByte b) with
  | some q' => .ok q'
  | none => .ok q

/-- The enqueue site in `spi1_interrupt`: `SpiRx` is enqueued with the
`Result` discarded, so on a full queue the event is silently dropped. -/
def spi1_rx_enqueue (q : List Message) : EnqueueOutcome :=
  match queue_enqueue q .SpiRx with
  | some q' => .ok q'
  | none => .ok q

/-- The four enqueue sites in `button_poll` (power long press, power short
press, power release, reset short press): each discards the `Result`, so on
a full queue the event is silently dropped. -/
def button_poll_enqueue (q : List Message) (m : Message) : EnqueueOutcome :=
  match queue_enqueue q m with
  | some q' => .ok q'
  | none => .ok q

/-- The enqueue site in `speaker_pwm_stop`: `SpeakerDisable` is enqueued
with the `Result` discarded, so on a full queue the event is silently
dropped. -/
def speaker_stop_enqueue (q : List Message) : EnqueueOutcome :=
  match queue_enqueue q .SpeakerDisable with
  | some q' => .ok q'
  | none => .ok q

/-- `DcPowerState` from `main.rs`. -/
inductive DcPowerState
  | Starting
  | On
  | Off
  deriving DecidableEq

/-- Modelled from the spec: `Ps2Decoder::check_word` validates an 11-bit
frame (start bit = 0, 8 data bits LSB-first, odd parity over the data bits,
stop bit = 1) and returns the reconstructed data byte. -/
def check_word (w : Nat) : Option Nat :=
  let start := w % 2
  let data := (w / 2) % 256
  let parity := (w / 512) % 2
  let stop := (w / 1024) % 2
  if start = 0 ∧ stop = 1 ∧ ((Nat.digits 2 data).sum + parity) % 2 = 1 then
    some data
  else
    none

/-- `push_back` on the keyboard FIFO (`heapless::Deque<u8, 16>`): on a full
deque the byte is rejected and the `idle` loop merely logs the overflow. -/
def deque_push_back (fifo : List Nat) (b : Nat) : List Nat :=
  if fifo.length < 16 then fifo ++ [b] else fifo

/-- The state owned or driven by the `idle` dispatch loop: the register
file, the local IRQ mask, the output pins (recorded as `true` = driven
high), the power state machine, and abstractions of the SPI engine and the
delayed `exit_reset` task.  `spi_rx_pending` models (from the spec) the byte
transport handing over at most one decoded request, exactly once. -/
structure IdleState where
  register_state : RegisterState
  irq_masked : Bool
  pin_irq_high : Bool
  state_dc_power_enabled : DcPowerState
  pin_dc_on_high : Bool
  pin_sys_reset_high : Bool
  spi_on : Bool
  exit_reset_scheduled : Bool
  speaker_hw_enabled : Bool
  spi_rx_pending : Option Request
  spi_tx : Option Response
  deriving DecidableEq

/-- The IRQ maintenance at the top of each `idle` loop iteration: the host
service line is driven low (active) exactly when the IRQ is not masked and
the keyboard FIFO is non-empty; otherwise it is driven high. -/
def set_irq_pin (s : IdleState) : IdleState :=
  if ¬s.irq_masked ∧ ¬s.register_state.ps2_kb_bytes.isEmpty then
    { s with pin_irq_high := false }
  else
    { s with pin_irq_high := true }

/-- The `match ctx.shared.msg_q_out.dequeue()` arms of the `idle` loop, as a
transformer of the modelled state.  Hardware-only effects (defmt logging,
the LED task, the startup tune task) are outside the modelled state; the
SPI engine reset/start/stop is abstracted to the `spi_on` flag and
`exit_reset::spawn_after` to the `exit_reset_scheduled` flag (the spawn
result is discarded by the source, so re-arming is unconditional). -/
def handle_message (s : IdleState) (m : Message) : IdleState :=
  match m with
  | .Ps2Data0 word =>
    match check_word word with
    | some byte =>
      { s with register_state :=
          { s.register_state with
              ps2_kb_bytes := deque_push_back s.register_state.ps2_kb_bytes byte } }
    | none => s
  | .Ps2Data1 _ => s
  | .PowerButtonLongPress =>
    if s.state_dc_power_enabled = .On then
      { s with
          state_dc_power_enabled := .Off
          spi_on := false
          pin_sys_reset_high := false
          pin_dc_on_high := false
          irq_masked := true }
    else s
  | .PowerButtonShortPress =>
    if s.state_dc_power_enabled = .Off then
      { s with
          speaker_hw_enabled := true
          state_dc_power_enabled := .Starting
          pin_sys_reset_high := false
          pin_dc_on_high := true
          exit_reset_scheduled := true
          irq_masked := false }
    else s
  | .PowerButtonRelease =>
    if s.state_dc_power_enabled = .Starting then
      { s with state_dc_power_enabled := .On }
    else s
  | .ResetButtonShortPress =>
    -- Only do a reset if the board is powered on.
    if s.state_dc_power_enabled = .On then
      { s with
          pin_sys_reset_high := false
          speaker_hw_enabled := true
          spi_on := false
          exit_reset_scheduled := true }
    else s
  | .SpiEnable =>
    if s.state_dc_power_enabled ≠ .Off then
      { s with spi_on := true }
    else s
  | .SpiDisable => { s with spi_on := false }
  | .SpiRx =>
    match s.spi_rx_pending with
    | some req =>
      let pr := process_command req s.register_state
      { s with
          register_state := pr.2
          spi_tx := some pr.1
          spi_rx_pending := none }
    | none => s
  | .UartByte _ => s
  | .SpeakerDisable =>
    { s with
        speaker_hw_enabled := false
        register_state :=
          { s.register_state with speaker := s.register_state.speaker.set_duration 0 } }

/-- The speaker resynchronization at the bottom of each `idle` loop
iteration: when the dirty flag is set it is cleared (the PWM hardware update
and the stop-task scheduling are outside the modelled state). -/
def speaker_update_step (s : IdleState) : IdleState :=
  if s.register_state.speaker.needs_update then
    { s with register_state :=
        { s.register_state with
            speaker := s.register_state.speaker.set_needs_update false } }
  else s

/-- One iteration of the `idle` dispatch loop: maintain the IRQ pin, handle
the dequeued message (if any), then resynchronize the speaker. -/
def idle_step (s : IdleState) (m : Option Message) : IdleState :=
  let s := set_irq_pin s
  let s := match m with
    | some msg => handle_message s msg
    | none => s
  speaker_update_step s

/-- Run the dispatch loop over a sequence of dequeue outcomes. -/
def idle_run (s : IdleState) (ms : List (Option Message)) : IdleState :=
  ms.foldl idle_step s

/-- The state of the `idle` loop right after `init` and the local `let`
bindings: host in reset, PSU off, IRQ line high (inactive) and masked,
power state `Off`. -/
def IdleState.initial (version : List Nat) : IdleState :=
  { register_state := RegisterState.initial version
    irq_masked := true
    pin_irq_high := true
    state_dc_power_enabled := .Off
    pin_dc_on_high := false
    pin_sys_reset_high := false
    spi_on := false
    exit_reset_scheduled := false
    speaker_hw_enabled := false
    spi_rx_pending := none
    spi_tx := none }

/-- A request that the `Ps2KbBuffer` read branch of `process_command` could
have cached: a (possibly alternate-encoded) read of the keyboard buffer
register with an accepted length `1 ..= 16`. -/
def Request.isValidKbRead (r : Request) : Prop :=
  r.request_type.flatten = .read
    ∧ Command.try_from r.register = some .Ps2KbBuffer
    ∧ 1 ≤ r.length_or_data ∧ r.length_or_data ≤ 16

/-- Invariant of the retry cache: only valid `Ps2KbBuffer` reads are ever
stored in `last_req` (the only assignment of `Some` is in that branch).
All states reachable by the firmware satisfy it. -/
def cacheInv (s : RegisterState) : Prop :=
  ∀ r, s.last_req = some r → r.isValidKbRead

/-- The register table of the spec, as a predicate on (request type,
register id): the combinations `process_command` serves with something
other than `BadRegister`. -/
def supported_combo (t : RequestType) (reg : Nat) : Bool :=
  match t.flatten, Command.try_from reg with
  | .read, some _ => true
  | .shortWrite, some .SpeakerDuration => true
  | .shortWrite, some .SpeakerPeriodHigh => true
  | .shortWrite, some .SpeakerPeriodLow => true
  | .shortWrite, some .SpeakerDutyCycle => true
  | _, _ => false

/-- A concrete power-on register file (all-zero 32-byte version string). -/
def regState0 : RegisterState := RegisterState.initial (List.replicate 32 0)

/-- A concrete register file whose retry cache holds a previously accepted
keyboard-buffer read, as after a destructive `Ps2KbBuffer` read. -/
def cachedKbState : RegisterState :=
  { regState0 with last_req := some ⟨2, .read, 8⟩ }

/-- A concrete register file with three bytes waiting in the keyboard
FIFO. -/
def kbTestState : RegisterState :=
  { regState0 with ps2_kb_bytes := [9, 8, 7] }

/-- A concrete full event queue (8 occupied slots). -/
def fullQueue : List Message := List.replicate 8 .SpiRx

/-- A concrete `idle`-loop state in the `Starting` power phase with the
reset line released and no pending `exit_reset` action. -/
def startingState : IdleState :=
  { IdleState.initial (List.replicate 32 0) with
      state_dc_power_enabled := .Starting
      pin_sys_reset_high := true }

/-! ## Helper lemmas -/

/-- The scratch-filling loop writes the first `min n |fifo|` FIFO bytes in
order and zero-pads the remaining slots. -/
theorem popInto_fst (n : Nat) (l : List Nat) :
    (popInto n l).1 = l.take n ++ List.replicate (n - l.length) 0 := by
  induction n generalizing l with
  | zero => simp [popInto]
  | succ n ih =>
    cases l with
    | nil => simp [popInto, ih, List.replicate_succ]
    | cons x rest => simp [popInto, ih rest, Nat.succ_sub_succ]

/-- The scratch-filling loop removes the first `n` bytes from the FIFO. -/
theorem popInto_snd (n : Nat) (l : List Nat) :
    (popInto n l).2 = l.drop n := by
  induction n generalizing l with
  | zero => simp [popInto]
  | succ n ih =>
    cases l with
    | nil => simp [popInto]
    | cons x rest => simp [popInto, ih rest]

/-- The scratch-filling loop fills exactly `n` slots. -/
theorem popInto_fst_length (n : Nat) (l : List Nat) :
    (popInto n l).1.length = n := by
  rw [popInto_fst]
  simp [List.length_take, List.length_replicate]
  omega

/-- Writing the same duration twice is the same as writing it once. -/
@[simp] theorem set_duration_idem (s : SpeakerRegisterState) (v : Nat) :
    (s.set_duration v).set_duration v = s.set_duration v := rfl

/-- Writing the same high period twice is the same as writing it once. -/
@[simp] theorem set_period_high_idem (s : SpeakerRegisterState) (v : Nat) :
    (s.set_period_high v).set_period_high v = s.set_period_high v := rfl

/-- Writing the same low period twice is the same as writing it once. -/
@[simp] theorem set_period_low_idem (s : SpeakerRegisterState) (v : Nat) :
    (s.set_period_low v).set_period_low v = s.set_period_low v := rfl

/-- Writing the same duty cycle twice is the same as writing it once. -/
@[simp] theorem set_duty_cycle_idem (s : SpeakerRegisterState) (v : Nat) :
    (s.set_duty_cycle v).set_duty_cycle v = s.set_duty_cycle v := rfl

/-- Fully applying `process_command` a second time to the same request
changes nothing: the pair (response, state) is reproduced exactly. -/
theorem process_command_idem (req : Request) (s : RegisterState) :
    process_command req (process_command req s).2 = process_command req s := by
  by_cases hdup : s.last_req = some req
  · simp [process_command, hdup]
  · obtain ⟨reg, rt, L⟩ := req
    cases rt <;>
      rcases hc : Command.try_from reg with _ | c <;>
      (try cases c) <;>
      simp_all [process_command, RequestType.flatten, hc] <;>
      (try (split <;> simp_all [process_command, RequestType.flatten, hc]))

/-- `set_irq_pin` only drives the IRQ pin. -/
theorem set_irq_pin_preserves (s : IdleState) :
    (set_irq_pin s).irq_masked = s.irq_masked
    ∧ (set_irq_pin s).state_dc_power_enabled = s.state_dc_power_enabled
    ∧ (set_irq_pin s).register_state = s.register_state := by
  unfold set_irq_pin
  split <;> simp

/-- `speaker_update_step` only touches the speaker dirty flag. -/
theorem speaker_update_step_preserves (s : IdleState) :
    (speaker_update_step s).irq_masked = s.irq_masked
    ∧ (speaker_update_step s).state_dc_power_enabled = s.state_dc_power_enabled
    ∧ (speaker_update_step s).pin_irq_high = s.pin_irq_high := by
  unfold speaker_update_step
  split <;> simp

/-- Message handling preserves the masking discipline: if the IRQ is masked
whenever the power state is `Off` before handling a message, the same holds
afterwards (power-off masks, power-on unmasks and leaves `Off`). -/
theorem handle_message_mask_inv (s : IdleState) (m : Message)
    (h : s.state_dc_power_enabled = .Off → s.irq_masked = true) :
    (handle_message s m).state_dc_power_enabled = .Off →
      (handle_message s m).irq_masked = true := by
  cases m <;> simp only [handle_message] <;> (try split) <;> simp_all

/-- One dispatch-loop iteration preserves the masking discipline. -/
theorem idle_step_mask_inv (s : IdleState) (m : Option Message)
    (h : s.state_dc_power_enabled = .Off → s.irq_masked = true) :
    (idle_step s m).state_dc_power_enabled = .Off →
      (idle_step s m).irq_masked = true := by
  have hp := set_irq_pin_preserves s
  have h1 : (set_irq_pin s).state_dc_power_enabled = .Off →
      (set_irq_pin s).irq_masked = true := by
    rw [hp.1, hp.2.1]; exact h
  cases m with
  | none =>
    simp only [idle_step]
    intro hoff
    have hq := speaker_update_step_preserves (set_irq_pin s)
    rw [hq.1]
    exact h1 (by rw [← hq.2.1]; exact hoff)
  | some msg =>
    simp only [idle_step]
    intro hoff
    have hq := speaker_update_step_preserves (handle_message (set_irq_pin s) msg)
    rw [hq.1]
    exact handle_message_mask_inv _ msg h1 (by rw [← hq.2.1]; exact hoff)

/-- Any run of the dispatch loop preserves the masking discipline. -/
theorem idle_run_mask_inv (ms : List (Option Message)) (s : IdleState)
    (h : s.state_dc_power_enabled = .Off → s.irq_masked = true) :
    (idle_run s ms).state_dc_power_enabled = .Off →
      (idle_run s ms).irq_masked = true := by
  induction ms generalizing s with
  | nil => exact h
  | cons m ms ih =>
    simp only [idle_run, List.foldl_cons] at *
    exact ih (idle_step s m) (idle_step_mask_inv s m h)

/-- Characterization of the IRQ pin maintenance: the line is driven low
exactly when the FIFO is non-empty and the IRQ is unmasked. -/
theorem set_irq_pin_low_iff (s : IdleState) :
    (set_irq_pin s).pin_irq_high = false ↔
      (¬s.register_state.ps2_kb_bytes.isEmpty = true ∧ s.irq_masked = false) := by
  unfold set_irq_pin
  cases hb : s.irq_masked <;> split <;> simp_all

/-! ## Claims -/

/-- C1: the claim that a `ShortWrite` of `v` to each speaker register
followed by a `Read` of the same register returns exactly `v` fails in the
code for the period registers: the `ShortWrite` branch for
`SpeakerPeriodHigh` calls `set_period_low` (and the `SpeakerPeriodLow`
branch calls `set_period_high`), contradicting its own log message.  This
theorem evaluates the code at the failing input: from the power-on register
file, writing 5 to `SpeakerPeriodHigh` is acknowledged with `Ok`, yet a
`Read` of `SpeakerPeriodHigh` returns payload `[0]`, the written value
having landed in the low period register instead. -/
theorem c1_speaker_period_high_roundtrip_fails :
    (process_command ⟨4, .shortWrite, 5⟩ regState0).1 = Response.new_without_data .Ok
    ∧ (process_command ⟨4, .read, 1⟩
        (process_command ⟨4, .shortWrite, 5⟩ regState0).2).1
        = Response.new_ok_with_data [0]
    ∧ (process_command ⟨4, .shortWrite, 5⟩ regState0).2.speaker.period_low = 5 := by
  decide

/-- C3 counterexample: the UART producer does not panic on a full event
queue — the enqueue result is discarded (`let _ = ...`) and the byte is
silently dropped, refuting the claim that every producer panics. -/
theorem c3_uart_producer_drops_on_full :
    fullQueue.length = QUEUE_CAPACITY
    ∧ usart1_rx_enqueue fullQueue 0 ≠ .panicked
    ∧ usart1_rx_enqueue fullQueue 0 = .ok fullQueue := by
  decide

/-- C3 (amended): when an enqueue finds the event queue full, only the PS/2
and chip-select producers (in the EXTI interrupt handler) panic; the UART,
SPI, button-poll and speaker-stop producers silently drop the event,
leaving the queue unchanged. -/
theorem c3_full_queue_producer_behaviour (q : List Message) (word b : Nat)
    (m : Message) (hq : QUEUE_CAPACITY ≤ q.length) :
    exti_ps2_word_enqueue q word = .panicked
    ∧ exti_cs_enqueue q true = .panicked
    ∧ exti_cs_enqueue q false = .panicked
    ∧ usart1_rx_enqueue q b = .ok q
    ∧ spi1_rx_enqueue q = .ok q
    ∧ button_poll_enqueue q m = .ok q
    ∧ speaker_stop_enqueue q = .ok q := by
  have h : ¬q.length < QUEUE_CAPACITY := Nat.not_lt.mpr hq
  simp [exti_ps2_word_enqueue, exti_cs_enqueue, usart1_rx_enqueue,
    spi1_rx_enqueue, button_poll_enqueue, speaker_stop_enqueue, queue_enqueue, h]

/-- C3 witness: the amended claim evaluated on a concrete full queue. -/
theorem c3_full_queue_producer_behaviour_witness :
    QUEUE_CAPACITY ≤ fullQueue.length
    ∧ exti_ps2_word_enqueue fullQueue 0 = .panicked
    ∧ speaker_stop_enqueue fullQueue = .ok fullQueue :=
  ⟨by decide,
    (c3_full_queue_producer_behaviour fullQueue 0 0 .SpiRx (by decide)).1,
    (c3_full_queue_producer_behaviour fullQueue 0 0 .SpiRx (by decide)).2.2.2.2.2.2⟩

/-- C4: the power state machine.  From `Off`, a power-button short press
moves to `Starting`, asserts the reset line (low) and enables the DC rail;
a button release in `Starting` moves to `On`; from `On`, a long press moves
to `Off` and de-energizes the rail; a short press while `On` or `Starting`
leaves the power state, rail and reset line unchanged. -/
theorem c4_power_state_machine (s : IdleState) :
    (s.state_dc_power_enabled = .Off →
      (handle_message s .PowerButtonShortPress).state_dc_power_enabled = .Starting
      ∧ (handle_message s .PowerButtonShortPress).pin_sys_reset_high = false
      ∧ (handle_message s .PowerButtonShortPress).pin_dc_on_high = true)
    ∧ (s.state_dc_power_enabled = .Starting →
      (handle_message s .PowerButtonRelease).state_dc_power_enabled = .On)
    ∧ (s.state_dc_power_enabled = .On →
      (handle_message s .PowerButtonLongPress).state_dc_power_enabled = .Off
      ∧ (handle_message s .PowerButtonLongPress).pin_dc_on_high = false)
    ∧ (s.state_dc_power_enabled = .On ∨ s.state_dc_power_enabled = .Starting →
      (handle_message s .PowerButtonShortPress).state_dc_power_enabled
          = s.state_dc_power_enabled
      ∧ (handle_message s .PowerButtonShortPress).pin_dc_on_high = s.pin_dc_on_high
      ∧ (handle_message s .PowerButtonShortPress).pin_sys_reset_high
          = s.pin_sys_reset_high) := by
  refine ⟨fun h => ?_, fun h => ?_, fun h => ?_, fun h => ?_⟩
  · simp [handle_message, h]
  · simp [handle_message, h]
  · simp [handle_message, h]
  · rcases h with h | h <;> simp [handle_message, h]

/-- C4 witness: the state machine evaluated at concrete states in each
power phase. -/
theorem c4_power_state_machine_witness :
    (handle_message (IdleState.initial []) .PowerButtonShortPress).state_dc_power_enabled
        = .Starting
    ∧ (handle_message { IdleState.initial [] with state_dc_power_enabled := .Starting }
        .PowerButtonRelease).state_dc_power_enabled = .On
    ∧ (handle_message { IdleState.initial [] with state_dc_power_enabled := .On }
        .PowerButtonLongPress).state_dc_power_enabled = .Off
    ∧ (handle_message { IdleState.initial [] with state_dc_power_enabled := .On }
        .PowerButtonShortPress).state_dc_power_enabled = .On :=
  ⟨((c4_power_state_machine (IdleState.initial [])).1 rfl).1,
    (c4_power_state_machine _).2.1 rfl,
    ((c4_power_state_machine _).2.2.1 rfl).1,
    ((c4_power_state_machine
        { IdleState.initial [] with state_dc_power_enabled := .On }).2.2.2
      (Or.inl rfl)).1⟩

/-- C5 counterexample: in the `Starting` power phase a reset-button short
press is ignored — the handler is guarded by `== DcPowerState::On` — so the
reset line is not re-asserted and no exit-reset action is scheduled,
refuting the claim for the `Starting` case. -/
theorem c5_reset_press_ignored_while_starting :
    startingState.state_dc_power_enabled = .Starting
    ∧ (handle_message startingState .ResetButtonShortPress).pin_sys_reset_high = true
    ∧ (handle_message startingState .ResetButtonShortPress).exit_reset_scheduled
        = false := by
  decide

/-- C5 (amended): only when the power state is `On` does a reset-button
short press re-assert the reset line (low) and schedule the delayed
exit-reset action (the schedule result is discarded, so re-arming an
already-scheduled action is accepted); in any other power state, including
`Starting`, the event leaves the state unchanged. -/
theorem c5_reset_press_only_when_on (s : IdleState) :
    (s.state_dc_power_enabled = .On →
      (handle_message s .ResetButtonShortPress).pin_sys_reset_high = false
      ∧ (handle_message s .ResetButtonShortPress).exit_reset_scheduled = true)
    ∧ (s.state_dc_power_enabled ≠ .On →
      handle_message s .ResetButtonShortPress = s) := by
  refine ⟨fun h => ?_, fun h => ?_⟩ <;> simp [handle_message, h]

/-- C5 witness: the amended claim evaluated at a concrete `On` state (with
the exit-reset action already scheduled, showing the re-arm is accepted)
and at the concrete `Starting` state. -/
theorem c5_reset_press_only_when_on_witness :
    (handle_message
        { IdleState.initial [] with
            state_dc_power_enabled := .On
            pin_sys_reset_high := true
            exit_reset_scheduled := true }
        .ResetButtonShortPress).pin_sys_reset_high = false
    ∧ handle_message startingState .ResetButtonShortPress = startingState :=
  ⟨((c5_reset_press_only_when_on _).1 rfl).1,
    (c5_reset_press_only_when_on startingState).2 (by decide)⟩

/-- C2: processing the same request twice in a row yields byte-identical
responses and the second call performs no destructive state mutation: the
keyboard FIFO after the second call (hence its length) equals the FIFO
after the first call — in particular a duplicate `Ps2KbBuffer` read is
served from the retry cache without draining the FIFO again.  Stated under
the retry-cache invariant satisfied by every reachable register file. -/
theorem c2_process_twice_idempotent (req : Request) (s : RegisterState)
    (_hca : cacheInv s) :
    (process_command req (process_command req s).2).1 = (process_command req s).1
    ∧ (process_command req (process_command req s).2).2.ps2_kb_bytes
        = (process_command req s).2.ps2_kb_bytes
    ∧ (process_command req (process_command req s).2).2.ps2_kb_bytes.length
        = (process_command req s).2.ps2_kb_bytes.length := by
  have h := process_command_idem req s
  exact ⟨congrArg (fun p => p.1) h, congrArg (fun p => p.2.ps2_kb_bytes) h,
    congrArg (fun p => p.2.ps2_kb_bytes.length) h⟩

/-- C2 witness: a concrete destructive keyboard-buffer read processed
twice returns the same response both times. -/
theorem c2_process_twice_idempotent_witness :
    (process_command ⟨2, .read, 4⟩ (process_command ⟨2, .read, 4⟩ kbTestState).2).1
      = (process_command ⟨2, .read, 4⟩ kbTestState).1 :=
  (c2_process_twice_idempotent ⟨2, .read, 4⟩ kbTestState (fun _ hr => nomatch hr)).1

/-- C6 counterexample: a `FirmwareVersion` read with requested length 40
returns `BadLength` with an empty payload, but does not leave the register
state unchanged — it clears a previously cached keyboard-buffer request
from the retry cache. -/
theorem c6_badlength_clears_retry_cache :
    (process_command ⟨1, .read, 40⟩ cachedKbState).1
        = Response.new_without_data .BadLength
    ∧ (process_command ⟨1, .read, 40⟩ cachedKbState).1.data = []
    ∧ (process_command ⟨1, .read, 40⟩ cachedKbState).2 ≠ cachedKbState := by
  decide

/-- C6 (amended): a `FirmwareVersion` read with requested length `L ≤ 32`
returns `Ok` with exactly the first `L` bytes of the stored 32-byte version
string; with `L > 32` it returns `BadLength` with an empty payload; in both
cases the register state is unchanged except that the retry cache
(`last_req`) is cleared. -/
theorem c6_firmware_version_read (reg L : Nat) (s : RegisterState)
    (hreg : Command.try_from reg = some .FirmwareVersion)
    (hver : s.firmware_version.length = 32)
    (hca : cacheInv s) :
    (L ≤ 32 →
      (process_command ⟨reg, .read, L⟩ s).1
          = Response.new_ok_with_data (s.firmware_version.take L)
      ∧ (process_command ⟨reg, .read, L⟩ s).1.data.length = L
      ∧ (process_command ⟨reg, .read, L⟩ s).2 = { s with last_req := none })
    ∧ (32 < L →
      (process_command ⟨reg, .read, L⟩ s).1 = Response.new_without_data .BadLength
      ∧ (process_command ⟨reg, .read, L⟩ s).1.data = []
      ∧ (process_command ⟨reg, .read, L⟩ s).2 = { s with last_req := none }) := by
  have hdup : ¬s.last_req = some ⟨reg, .read, L⟩ := by
    intro h
    obtain ⟨-, hkb, -, -⟩ := hca _ h
    rw [hreg] at hkb
    simp at hkb
  simp only [process_command, RequestType.flatten, hreg, if_neg hdup]
  rw [hver]
  constructor
  · intro h
    rw [if_pos h]
    refine ⟨rfl, ?_, rfl⟩
    simp [Response.new_ok_with_data, List.length_take, hver]
    omega
  · intro h
    rw [if_neg (by omega)]
    exact ⟨rfl, rfl, rfl⟩

/-- C6 witness: reading the full 32-byte version from a concrete register
file, and the `BadLength` answer for length 40. -/
theorem c6_firmware_version_read_witness :
    (process_command ⟨1, .read, 32⟩ regState0).1
        = Response.new_ok_with_data (List.replicate 32 0)
    ∧ (process_command ⟨1, .read, 40⟩ regState0).1
        = Response.new_without_data .BadLength := by
  have h32 := (c6_firmware_version_read 1 32 regState0 rfl (by decide)
    (fun _ hr => nomatch hr)).1 (by decide)
  have h40 := (c6_firmware_version_read 1 40 regState0 rfl (by decide)
    (fun _ hr => nomatch hr)).2 (by decide)
  refine ⟨?_, h40.1⟩
  rw [h32.1]
  decide

/-- C7: a `Ps2KbBuffer` read with requested length `1 ≤ L ≤ 16` returns
`Ok` with exactly `L` bytes — a count byte holding the number of bytes that
were in the keyboard FIFO, then FIFO bytes in order, zero-padded — and
stores the request in the retry cache; `L = 0` or `L > 16` returns
`BadLength`. -/
theorem c7_ps2_kb_buffer_read (reg L : Nat) (s : RegisterState)
    (hreg : Command.try_from reg = some .Ps2KbBuffer)
    (hscr : s.scratch.length = 16)
    (hfifo : s.ps2_kb_bytes.length ≤ 16)
    (hdup : ¬s.last_req = some ⟨reg, .read, L⟩) :
    (1 ≤ L → L ≤ 16 →
      (process_command ⟨reg, .read, L⟩ s).1.result = .Ok
      ∧ (process_command ⟨reg, .read, L⟩ s).1.data.length = L
      ∧ (process_command ⟨reg, .read, L⟩ s).1.data
          = (s.ps2_kb_bytes.length
              :: (s.ps2_kb_bytes.take 15
                  ++ List.replicate (15 - s.ps2_kb_bytes.length) 0)).take L
      ∧ (process_command ⟨reg, .read, L⟩ s).2.last_req = some ⟨reg, .read, L⟩)
    ∧ ((L = 0 ∨ 16 < L) →
      (process_command ⟨reg, .read, L⟩ s).1 = Response.new_without_data .BadLength
      ∧ (process_command ⟨reg, .read, L⟩ s).1.data = []) := by
  have hmod : s.ps2_kb_bytes.length % 256 = s.ps2_kb_bytes.length :=
    Nat.mod_eq_of_lt (by omega)
  simp only [process_command, RequestType.flatten, hreg, if_neg hdup]
  rw [hscr]
  constructor
  · intro h1 h2
    rw [if_pos ⟨by omega, h2⟩]
    refine ⟨rfl, ?_, ?_, rfl⟩
    · simp [Response.new_ok_with_data, List.length_take, popInto_fst_length]
      omega
    · simp only [Response.new_ok_with_data]
      rw [popInto_fst, hmod]
  · intro h
    rw [if_neg (by rintro ⟨h1, h2⟩; rcases h with h | h <;> omega)]
    exact ⟨rfl, rfl⟩

/-- C7 witness: a concrete keyboard-buffer read (three bytes in the FIFO,
requested length 6) returning the count byte, the three FIFO bytes, and
zero padding. -/
theorem c7_ps2_kb_buffer_read_witness :
    (process_command ⟨2, .read, 6⟩ kbTestState).1.data = [3, 9, 8, 7, 0, 0]
    ∧ (process_command ⟨2, .read, 17⟩ kbTestState).1
        = Response.new_without_data .BadLength := by
  have h := (c7_ps2_kb_buffer_read 2 6 kbTestState rfl (by decide) (by decide)
    (by decide)).1 (by decide) (by decide)
  have hbad := (c7_ps2_kb_buffer_read 2 17 kbTestState rfl (by decide) (by decide)
    (by decide)).2 (Or.inr (by decide))
  refine ⟨?_, hbad.1⟩
  rw [h.2.2.1]
  decide

/-- C8 counterexample: a request for an unknown register returns
`BadRegister` with no payload, but does not leave the register state
unchanged — it clears a previously cached keyboard-buffer request from the
retry cache. -/
theorem c8_bad_register_clears_retry_cache :
    (process_command ⟨200, .read, 1⟩ cachedKbState).1
        = Response.new_without_data .BadRegister
    ∧ (process_command ⟨200, .read, 1⟩ cachedKbState).1.data = []
    ∧ (process_command ⟨200, .read, 1⟩ cachedKbState).2 ≠ cachedKbState := by
  decide

/-- C8 (amended): any request whose (register id, request type) combination
is not in the supported register table gets a `BadRegister` response with
no payload, and the register state is unchanged except that the retry cache
(`last_req`) is cleared. -/
theorem c8_unsupported_combo_bad_register (req : Request) (s : RegisterState)
    (hca : cacheInv s)
    (hsup : supported_combo req.request_type req.register = false) :
    process_command req s
      = (Response.new_without_data .BadRegister, { s with last_req := none }) := by
  obtain ⟨reg, rt, L⟩ := req
  have hdup : ¬s.last_req = some ⟨reg, rt, L⟩ := by
    intro h
    obtain ⟨hrt, hkb, -, -⟩ := hca _ h
    simp [supported_combo, hrt, hkb] at hsup
  cases rt <;>
    rcases hc : Command.try_from reg with _ | c <;>
    (try cases c) <;>
    simp_all [process_command, RequestType.flatten, supported_combo, hc]

/-- C8 witness: the amended claim at a concrete unknown register id. -/
theorem c8_unsupported_combo_bad_register_witness :
    process_command ⟨200, .read, 1⟩ regState0
      = (Response.new_without_data .BadRegister,
          { regState0 with last_req := none }) :=
  c8_unsupported_combo_bad_register ⟨200, .read, 1⟩ regState0
    (fun _ hr => nomatch hr) (by decide)

/-- C9: at the start of every dispatch-loop iteration the host service line
is driven low (active) exactly when the keyboard FIFO is non-empty and the
host interrupt is not masked; along every run from the boot state the mask
discipline holds (power `Off` implies masked, the mask is set by power-off
and cleared by power-on), so the line is never driven active while the
power state is `Off`. -/
theorem c9_irq_line_discipline (version : List Nat) (ms : List (Option Message)) :
    ((set_irq_pin (idle_run (IdleState.initial version) ms)).pin_irq_high = false
      ↔ (¬(idle_run (IdleState.initial version) ms).register_state.ps2_kb_bytes.isEmpty
            = true
          ∧ (idle_run (IdleState.initial version) ms).irq_masked = false))
    ∧ ((idle_run (IdleState.initial version) ms).state_dc_power_enabled = .Off →
        (idle_run (IdleState.initial version) ms).irq_masked = true)
    ∧ ((idle_run (IdleState.initial version) ms).state_dc_power_enabled = .Off →
        (set_irq_pin (idle_run (IdleState.initial version) ms)).pin_irq_high = true)
    ∧ (∀ t : IdleState, t.state_dc_power_enabled = .On →
        (handle_message t .PowerButtonLongPress).irq_masked = true)
    ∧ (∀ t : IdleState, t.state_dc_power_enabled = .Off →
        (handle_message t .PowerButtonShortPress).irq_masked = false) := by
  have hinv := idle_run_mask_inv ms (IdleState.initial version) (fun _ => rfl)
  refine ⟨set_irq_pin_low_iff _, hinv, fun hoff => ?_,
    fun t ht => by simp [handle_message, ht],
    fun t ht => by simp [handle_message, ht]⟩
  have hm := hinv hoff
  cases hb : (set_irq_pin (idle_run (IdleState.initial version) ms)).pin_irq_high with
  | true => rfl
  | false =>
    have := (set_irq_pin_low_iff _).mp hb
    rw [hm] at this
    exact absurd this.2 (by simp)

/-- C9 witness: the discipline evaluated on the boot state with no events
handled. -/
theorem c9_irq_line_discipline_witness :
    (set_irq_pin (idle_run (IdleState.initial []) [])).pin_irq_high = true :=
  (c9_irq_line_discipline [] []).2.2.1 rfl

/-- C10: a valid `Ps2KbBuffer` read pops the FIFO into all 15 scratch slots
regardless of the requested length `L`: `min 15 |fifo|` bytes are removed
from the FIFO even when `L - 1` is smaller, and the response still carries
only `L` bytes (FIFO bytes beyond the payload are discarded). -/
theorem c10_kb_read_drains_fifo (reg L : Nat) (s : RegisterState)
    (hreg : Command.try_from reg = some .Ps2KbBuffer)
    (hscr : s.scratch.length = 16)
    (hdup : ¬s.last_req = some ⟨reg, .read, L⟩)
    (h1 : 1 ≤ L) (h2 : L ≤ 16) :
    (process_command ⟨reg, .read, L⟩ s).2.ps2_kb_bytes = s.ps2_kb_bytes.drop 15
    ∧ s.ps2_kb_bytes.length
        - (process_command ⟨reg, .read, L⟩ s).2.ps2_kb_bytes.length
        = min 15 s.ps2_kb_bytes.length
    ∧ (process_command ⟨reg, .read, L⟩ s).1.data.length = L := by
  simp only [process_command, RequestType.flatten, hreg, if_neg hdup]
  rw [hscr, if_pos ⟨by omega, h2⟩]
  refine ⟨popInto_snd 15 _, ?_, ?_⟩
  · rw [popInto_snd]
    simp [List.length_drop]
    omega
  · simp [Response.new_ok_with_data, List.length_take, popInto_fst_length]
    omega

/-- C10 witness: with three bytes in the FIFO and requested length 2, all
three bytes leave the FIFO although only one is returned. -/
theorem c10_kb_read_drains_fifo_witness :
    (process_command ⟨2, .read, 2⟩ kbTestState).2.ps2_kb_bytes = []
    ∧ (process_command ⟨2, .read, 2⟩ kbTestState).1.data.length = 2 := by
  have h := c10_kb_read_drains_fifo 2 2 kbTestState rfl (by decide) (by decide)
    (by decide) (by decide)
  refine ⟨?_, h.2.2⟩
  rw [h.1]
  decide

end NeotronBmc
